import Mathlib

/-!
# Verification of `http-aws4.js`

A shallow embedding of the request-construction logic of the `http-aws4`
command-line tool (`src/http-aws4.js`): argument parsing for method and
headers, region/service inference from the URL via the source's regular
expressions, header-map construction in `createRequest`, response
classification in `handleResponse`/`handleError`, and the top-level
promise chain.

JavaScript strings are modelled as Lean `String`s (lists of characters);
JavaScript objects used as header maps are modelled as ordered association
lists with unique keys, where assignment (`obj[k] = v`, `Object.assign`)
overwrites the value of an existing key in place and otherwise appends.
-/

set_option autoImplicit false

namespace HttpAws4

/-! ## ASCII character primitives (JS `toLowerCase`/`toUpperCase` on ASCII) -/

/-- Uppercase ASCII letter test (code points 65–90). -/
def isUpperAsciiB (c : Char) : Bool := 65 ≤ c.toNat && c.toNat ≤ 90

/-- Lowercase ASCII letter test (code points 97–122). -/
def isLowerAsciiB (c : Char) : Bool := 97 ≤ c.toNat && c.toNat ≤ 122

/-- Model of JS `String.prototype.toLowerCase` on a single character,
restricted to ASCII (all strings handled by the tool are ASCII). -/
def jsCharToLower (c : Char) : Char :=
  if isUpperAsciiB c then Char.ofNat (c.toNat + 32) else c

/-- Model of JS `String.prototype.toUpperCase` on a single character,
restricted to ASCII. -/
def jsCharToUpper (c : Char) : Char :=
  if isLowerAsciiB c then Char.ofNat (c.toNat - 32) else c

/-- Model of JS `String.prototype.toLowerCase` (ASCII). -/
def jsToLower (s : String) : String := ⟨s.data.map jsCharToLower⟩

/-- Model of JS `String.prototype.toUpperCase` (ASCII). -/
def jsToUpper (s : String) : String := ⟨s.data.map jsCharToUpper⟩

/-- A string is "lowercase" in the sense of the spec: it contains no
uppercase ASCII letter. -/
def noUpperAscii (s : String) : Bool := s.data.all (fun c => !isUpperAsciiB c)

/-- A string is "uppercase": it contains no lowercase ASCII letter. -/
def noLowerAscii (s : String) : Bool := s.data.all (fun c => !isLowerAsciiB c)

/-! ## JS `indexOf` / `substr` -/

/-- Index of the first occurrence of `c`, or `-1` when absent
(JS `String.prototype.indexOf` with a single-character needle). -/
def jsIndexOfAux (c : Char) : List Char → Int
  | [] => -1
  | x :: xs =>
    if x = c then 0
    else
      let r := jsIndexOfAux c xs
      if r < 0 then -1 else r + 1

/-- JS `s.indexOf(c)`. -/
def jsIndexOf (s : String) (c : Char) : Int := jsIndexOfAux c s.data

/-- Core of JS `String.prototype.substr(start, length)`: a negative `start`
counts from the end (clamped at 0), a missing `length` means "to the end",
and a negative `length` yields the empty string. -/
def jsSubstrList (cs : List Char) (start : Int) (len : Option Int) : List Char :=
  let n : Int := cs.length
  let b : Int := if start < 0 then max (n + start) 0 else min start n
  let l : Int :=
    match len with
    | none => n - b
    | some L => min (max L 0) (n - b)
  (cs.drop b.toNat).take l.toNat

/-- JS `s.substr(start, length)` (`length` optional). -/
def jsSubstr (s : String) (start : Int) (len : Option Int) : String :=
  ⟨jsSubstrList s.data start len⟩

/-! ## JS objects as ordered string maps -/

/-- A JS object used as a string-to-string map: an ordered association
list. The construction below only ever produces lists with unique keys. -/
abbrev StrMap := List (String × String)

/-- Property assignment `obj[n] = v`: overwrite in place when the key
exists, append otherwise (JS insertion-order semantics). -/
def jsSet : StrMap → String → String → StrMap
  | [], n, v => [(n, v)]
  | (k, w) :: rest, n, v =>
    if k = n then (k, v) :: rest else (k, w) :: jsSet rest n v

/-- Property read `obj[n]`, `none` for a missing key. -/
def jsLookup : StrMap → String → Option String
  | [], _ => none
  | (k, v) :: rest, n => if k = n then some v else jsLookup rest n

/-- The keys of the object, in order. -/
def jsKeys (m : StrMap) : List String := m.map Prod.fst

/-- Assign a sequence of key/value pairs into `m` in order; this is the
effect of the source's assignment loops and of `Object.assign` (whose later
sources overwrite earlier ones key by key). -/
def assignPairs (m : StrMap) (ps : List (String × String)) : StrMap :=
  ps.foldl (fun acc p => jsSet acc p.1 p.2) m

/-- The value the last assignment of key `k` in the pair sequence `ps`
would leave behind, if any (specification-side helper for reasoning about
`assignPairs`). -/
def lastVal : List (String × String) → String → Option String
  | [], _ => none
  | p :: rest, k => (lastVal rest k).or (if p.1 = k then some p.2 else none)

/-- Model of the `lowercase-keys` package: build a fresh object whose keys
are the lowercased keys of `m` (later duplicates after lowercasing
overwrite earlier ones). -/
def lowercaseKeys (m : StrMap) : StrMap :=
  assignPairs [] (m.map (fun p => (jsToLower p.1, p.2)))

/-- The `USER_AGENT` constant of `http-aws4.js`, assembled from
`package.json`'s `name`, `version` and `repository` fields. -/
def USER_AGENT : String := "http-aws4/0.7.0 (https://github.com/timdp/http-aws4)"

/-- Model of the header-argument loop of `http-aws4.js` (lines 95–100):
`pos = arg.indexOf(':')`, name `arg.substr(0, pos).toLowerCase()`, value
`arg.substr(pos + 1)`. -/
def parseHeaderArg (arg : String) : String × String :=
  let pos := jsIndexOf arg ':'
  (jsToLower (jsSubstr arg 0 (some pos)), jsSubstr arg (pos + 1) none)

/-- The caller-supplied `headers` object: the header arguments assigned
into an initially empty object, in order. -/
def callerHeaders (args : List String) : StrMap :=
  assignPairs [] (args.map parseHeaderArg)

/-- Model of the header construction in `createRequest` (lines 185–189):
`Object.assign(lowercaseKeys(request.headers), {'user-agent': USER_AGENT},
headers, {host: endpoint.host})`. `base` stands for the default headers the
`aws-sdk` `HttpRequest` constructor installs (external to this repository,
hence arbitrary here), and `endpointHost` for `endpoint.host`, the
authority component AWS's `Endpoint` extracts from the URL. -/
def requestHeaders (base : StrMap) (args : List String) (endpointHost : String) : StrMap :=
  assignPairs (lowercaseKeys base)
    (([("user-agent", USER_AGENT)] ++ callerHeaders args) ++ [("host", endpointHost)])

/-! ## The two host-matching regular expressions

`http-aws4.js` infers region and service from the (normalized) URL with

* line 87: `/([a-z0-9-]+)\.\w+\.amazonaws\.com(?:\/|:|$)/i.exec(url)[1]`
* line 92: `/(\w+)\.amazonaws\.com(?:\/|:|$)/i.exec(url)[1]`

`exec` scans start positions left to right and returns the captures of the
first position at which the pattern matches.  In both patterns every
quantified character class (`[a-z0-9-]+`, `\w+`) is immediately followed by
a literal `'.'`, and `'.'` belongs to neither class; hence, at a fixed
start position, backtracking a greedy run to a shorter length leaves the
next input character inside the class and therefore unequal to `'.'`, so
the maximal run is the only candidate.  The matchers below therefore take
maximal class runs and never backtrack, which is observationally equal to
the JS engine on these two patterns. -/

/-- JS `\w`: `[A-Za-z0-9_]`. -/
def wordChar (c : Char) : Bool :=
  isUpperAsciiB c || isLowerAsciiB c || (48 ≤ c.toNat && c.toNat ≤ 57) || c = '_'

/-- The class `[a-z0-9-]` under the `/i` flag: ASCII letters of either
case, digits, and `'-'`. -/
def regionChar (c : Char) : Bool :=
  isUpperAsciiB c || isLowerAsciiB c || (48 ≤ c.toNat && c.toNat ≤ 57) || c = '-'

/-- Maximal prefix of characters satisfying `p`, plus the remainder. -/
def takeRun (p : Char → Bool) : List Char → List Char × List Char
  | [] => ([], [])
  | c :: cs =>
    if p c then
      let r := takeRun p cs
      (c :: r.1, r.2)
    else ([], c :: cs)

/-- Match the literal `lit` (given in lowercase) case-insensitively
against the front of `cs`; return the remainder on success. -/
def stripLiteralCI : List Char → List Char → Option (List Char)
  | [], cs => some cs
  | _ :: _, [] => none
  | l :: ls, c :: cs => if jsCharToLower c = l then stripLiteralCI ls cs else none

/-- The tail alternative `(?:\/|:|$)` of both patterns. -/
def boundaryOk : List Char → Bool
  | [] => true
  | c :: _ => c = '/' || c = ':'

/-- Attempt the region pattern `([a-z0-9-]+)\.\w+\.amazonaws\.com(?:\/|:|$)`
at the current position; return the capture group on success. -/
def matchRegionAt (cs : List Char) : Option String :=
  let r1 := takeRun regionChar cs
  if r1.1.isEmpty then none
  else
    match r1.2 with
    | '.' :: rest2 =>
      let r2 := takeRun wordChar rest2
      if r2.1.isEmpty then none
      else
        match stripLiteralCI ".amazonaws.com".data r2.2 with
        | some rest4 => if boundaryOk rest4 then some ⟨r1.1⟩ else none
        | none => none
    | _ => none

/-- Attempt the service pattern `(\w+)\.amazonaws\.com(?:\/|:|$)` at the
current position. -/
def matchServiceAt (cs : List Char) : Option String :=
  let r1 := takeRun wordChar cs
  if r1.1.isEmpty then none
  else
    match stripLiteralCI ".amazonaws.com".data r1.2 with
    | some rest2 => if boundaryOk rest2 then some ⟨r1.1⟩ else none
    | none => none

/-- Leftmost-position scan for the region pattern (`RegExp.exec`). -/
def scanRegion : List Char → Option String
  | [] => matchRegionAt []
  | c :: cs =>
    match matchRegionAt (c :: cs) with
    | some g => some g
    | none => scanRegion cs

/-- Leftmost-position scan for the service pattern (`RegExp.exec`). -/
def scanService : List Char → Option String
  | [] => matchServiceAt []
  | c :: cs =>
    match matchServiceAt (c :: cs) with
    | some g => some g
    | none => scanService cs

/-- Group 1 of `/([a-z0-9-]+)\.\w+\.amazonaws\.com(?:\/|:|$)/i.exec(url)`,
`none` when `exec` returns `null`. -/
def execRegion (url : String) : Option String := scanRegion url.data

/-- Group 1 of `/(\w+)\.amazonaws\.com(?:\/|:|$)/i.exec(url)`, `none` when
`exec` returns `null`. -/
def execService (url : String) : Option String := scanService url.data

/-! ## Region and service resolution -/

/-- Outcome of one of the two resolution statements at lines 85–93.  The
script has no typed resolution errors: when the regular expression does
not match, `exec` returns `null` and the subscript `[1]` throws an untyped
`TypeError`, modelled by `typeErrorCrash`. -/
inductive ResOutcome
  | ok (v : String)
  | typeErrorCrash
deriving DecidableEq, Repr

/-- Lines 85–88: `region = argv.region; if (region == null) region =
<region regex>.exec(url)[1]`. -/
def resolveRegion (override : Option String) (url : String) : ResOutcome :=
  match override with
  | some r => .ok r
  | none =>
    match execRegion url with
    | some g => .ok g
    | none => .typeErrorCrash

/-- Lines 90–93: `service = argv.service; if (service == null) service =
<service regex>.exec(url)[1]`. -/
def resolveService (override : Option String) (url : String) : ResOutcome :=
  match override with
  | some s => .ok s
  | none =>
    match execService url with
    | some g => .ok g
    | none => .typeErrorCrash

/-! ## Method parsing -/

/-- JS `/^\w+$/.test(s)`: `s` is a nonempty run of word characters. -/
def jsIsWordToken (s : String) : Bool := !s.isEmpty && s.data.all wordChar

/-- Lines 72–78: if the first positional argument is a word token it is
the method, uppercased; otherwise the method defaults to `'GET'`. -/
def resolveMethod (first : String) : String :=
  if jsIsWordToken first then jsToUpper first else "GET"

/-! ## Response classification -/

/-- The metadata object accumulated by `handleResponse` (lines 210–215). -/
structure ResponseMetadata where
  statusCode : Nat
  statusMessage : String
  headers : StrMap
  body : String
deriving DecidableEq, Repr

/-- The two failure shapes the promise chain can reject with: an `Error`
with a `response` field (built at lines 221–223), or a transport-level
error (`response.on('error', reject)` / `client.handleRequest`'s error
callback) that has no `response` field. -/
inductive FailureKind
  | http (response : ResponseMetadata)
  | transport (message : String)
deriving DecidableEq, Repr

/-- The `err.response` field as read by `handleError` (line 170): present
exactly on the HTTP-error shape. -/
def failureResponse : FailureKind → Option ResponseMetadata
  | .http m => some m
  | .transport _ => none

/-- The `'end'` handler of `handleResponse` (lines 219–227): a status code
outside `[200, 300)` rejects with an error carrying the metadata, any
other resolves with the metadata. -/
def handleResponseEnd (m : ResponseMetadata) : Except FailureKind ResponseMetadata :=
  if m.statusCode < 200 ∨ 300 ≤ m.statusCode then .error (.http m) else .ok m

/-! ## The top-level invocation -/

/-- Untyped JS failures used by the invocation model. -/
inductive JsError
  | typeError
  | generic (message : String)
deriving DecidableEq, Repr

/-- Credentials as consumed by `createRequest` (external provider). -/
structure Credentials where
  accessKeyId : String
  secretAccessKey : String
deriving DecidableEq, Repr

/-- Model of the script's top-level control flow: `normalizeUrl` (line 80,
external, may throw on a malformed URL — passed here as a result), then
region resolution (85–88), then service resolution (90–93), then
`Promise.all([getStdin(), getCredentials()])` (line 235) whose rejection
skips the `.then` that builds and dispatches the request (236–239).  The
returned flag records whether `handleRequest` — the only call that sends
anything over the transport — was reached; `transport` stands for the
combined outcome of `handleRequest`/`handleResponse` when it was. -/
def runInvocation (normalizedUrl : Except JsError String)
    (regionOverride serviceOverride : Option String)
    (stdinResult : Except JsError String)
    (credsResult : Except JsError Credentials)
    (transport : Except FailureKind ResponseMetadata) :
    Bool × Except (JsError ⊕ FailureKind) ResponseMetadata :=
  match normalizedUrl with
  | .error e => (false, .error (.inl e))
  | .ok url =>
    match resolveRegion regionOverride url with
    | .typeErrorCrash => (false, .error (.inl .typeError))
    | .ok _region =>
      match resolveService serviceOverride url with
      | .typeErrorCrash => (false, .error (.inl .typeError))
      | .ok _service =>
        match stdinResult, credsResult with
        | .error e, _ => (false, .error (.inl e))
        | .ok _, .error e => (false, .error (.inl e))
        | .ok _body, .ok _creds =>
          (true, transport.mapError Sum.inr)

/-! ## Lemmas: ASCII case mapping -/

theorem toNat_ofNat_valid (n : Nat) (h : n < 0xd800) : (Char.ofNat n).toNat = n := by
  have hv : Nat.isValidChar n := Or.inl h
  rw [Char.ofNat, dif_pos hv]
  rfl

theorem isUpperAsciiB_jsCharToLower (c : Char) : isUpperAsciiB (jsCharToLower c) = false := by
  unfold jsCharToLower
  split
  · next h =>
    simp only [isUpperAsciiB, Bool.and_eq_true, decide_eq_true_eq] at h
    have h2 : (Char.ofNat (c.toNat + 32)).toNat = c.toNat + 32 := by
      apply toNat_ofNat_valid; omega
    simp only [isUpperAsciiB, h2]
    simp only [Bool.and_eq_false_iff, decide_eq_false_iff_not]
    omega
  · next h =>
    simpa using h

theorem isLowerAsciiB_jsCharToUpper (c : Char) : isLowerAsciiB (jsCharToUpper c) = false := by
  unfold jsCharToUpper
  split
  · next h =>
    simp only [isLowerAsciiB, Bool.and_eq_true, decide_eq_true_eq] at h
    have h2 : (Char.ofNat (c.toNat - 32)).toNat = c.toNat - 32 := by
      apply toNat_ofNat_valid; omega
    simp only [isLowerAsciiB, h2]
    simp only [Bool.and_eq_false_iff, decide_eq_false_iff_not]
    omega
  · next h =>
    simpa using h

theorem noUpperAscii_jsToLower (s : String) : noUpperAscii (jsToLower s) = true := by
  simp only [noUpperAscii, jsToLower, List.all_eq_true, List.mem_map]
  rintro c ⟨d, _, rfl⟩
  simp [isUpperAsciiB_jsCharToLower]

theorem noLowerAscii_jsToUpper (s : String) : noLowerAscii (jsToUpper s) = true := by
  simp only [noLowerAscii, jsToUpper, List.all_eq_true, List.mem_map]
  rintro c ⟨d, _, rfl⟩
  simp [isLowerAsciiB_jsCharToUpper]

/-! ## Lemmas: the object model -/

theorem jsLookup_jsSet (m : StrMap) (n v k : String) :
    jsLookup (jsSet m n v) k = if n = k then some v else jsLookup m k := by
  induction m with
  | nil => simp [jsSet, jsLookup]
  | cons p rest ih =>
    obtain ⟨pk, pv⟩ := p
    by_cases hpn : pk = n
    · subst hpn
      by_cases hpk : pk = k
      · subst hpk; simp [jsSet, jsLookup]
      · simp [jsSet, jsLookup, hpk]
    · by_cases hpk : pk = k
      · subst hpk
        have hnk : n ≠ pk := fun h => hpn h.symm
        simp [jsSet, jsLookup, hpn, hnk]
      · simp [jsSet, jsLookup, hpn, hpk, ih]

theorem mem_jsKeys_jsSet (m : StrMap) (n v k : String) :
    k ∈ jsKeys (jsSet m n v) ↔ k ∈ jsKeys m ∨ k = n := by
  induction m with
  | nil => simp [jsSet, jsKeys]
  | cons p rest ih =>
    obtain ⟨pk, pv⟩ := p
    by_cases hpn : pk = n
    · subst hpn; simp [jsSet, jsKeys]; tauto
    · simp only [jsSet, hpn, if_false, jsKeys, List.map_cons, List.mem_cons]
      rw [show (jsKeys (jsSet rest n v) = (jsSet rest n v).map Prod.fst) from rfl] at ih
      rw [show (jsKeys rest = rest.map Prod.fst) from rfl] at ih
      tauto

theorem nodup_jsKeys_jsSet (m : StrMap) (n v : String) (h : (jsKeys m).Nodup) :
    (jsKeys (jsSet m n v)).Nodup := by
  induction m with
  | nil => simp [jsSet, jsKeys]
  | cons p rest ih =>
    obtain ⟨pk, pv⟩ := p
    simp only [jsKeys, List.map_cons, List.nodup_cons] at h
    by_cases hpn : pk = n
    · subst hpn
      simpa [jsSet, jsKeys, List.nodup_cons] using h
    · simp only [jsSet, hpn, if_false, jsKeys, List.map_cons, List.nodup_cons]
      constructor
      · intro hmem
        rcases (mem_jsKeys_jsSet rest n v pk).1 hmem with h1 | h1
        · exact h.1 h1
        · exact hpn h1
      · exact ih h.2

theorem jsLookup_eq_none_of_not_mem (m : StrMap) (k : String) (h : k ∉ jsKeys m) :
    jsLookup m k = none := by
  induction m with
  | nil => rfl
  | cons p rest ih =>
    simp only [jsKeys, List.map_cons, List.mem_cons, not_or] at h
    have : p.1 ≠ k := fun he => h.1 he.symm
    obtain ⟨pk, pv⟩ := p
    simp only [jsLookup, if_neg this]
    exact ih h.2

theorem mem_jsKeys_of_jsLookup (m : StrMap) (k v : String) (h : jsLookup m k = some v) :
    k ∈ jsKeys m := by
  induction m with
  | nil => simp [jsLookup] at h
  | cons p rest ih =>
    obtain ⟨pk, pv⟩ := p
    by_cases hpk : pk = k
    · simp [jsKeys, hpk]
    · simp only [jsLookup, if_neg hpk] at h
      simp only [jsKeys, List.map_cons, List.mem_cons]
      right
      exact ih h

theorem lastVal_append (ps qs : List (String × String)) (k : String) :
    lastVal (ps ++ qs) k = (lastVal qs k).or (lastVal ps k) := by
  induction ps with
  | nil => simp [lastVal, Option.or_none]
  | cons p ps ih => simp [lastVal, ih, Option.or_assoc]

theorem lastVal_eq_none (ps : List (String × String)) (k : String)
    (h : ∀ p ∈ ps, p.1 ≠ k) : lastVal ps k = none := by
  induction ps with
  | nil => rfl
  | cons p ps ih =>
    have h1 : p.1 ≠ k := h p (by simp)
    have h2 : ∀ q ∈ ps, q.1 ≠ k := fun q hq => h q (by simp [hq])
    simp [lastVal, ih h2, h1]

theorem assignPairs_cons (m : StrMap) (p : String × String) (ps : List (String × String)) :
    assignPairs m (p :: ps) = assignPairs (jsSet m p.1 p.2) ps := rfl

theorem jsLookup_assignPairs (ps : List (String × String)) (m : StrMap) (k : String) :
    jsLookup (assignPairs m ps) k = (lastVal ps k).or (jsLookup m k) := by
  induction ps generalizing m with
  | nil => simp [assignPairs, lastVal]
  | cons p ps ih =>
    rw [assignPairs_cons, ih, lastVal, Option.or_assoc]
    congr 1
    rw [jsLookup_jsSet]
    by_cases h : p.1 = k <;> simp [h]

theorem mem_jsKeys_assignPairs (ps : List (String × String)) (m : StrMap) (k : String) :
    k ∈ jsKeys (assignPairs m ps) ↔ k ∈ jsKeys m ∨ k ∈ ps.map Prod.fst := by
  induction ps generalizing m with
  | nil => simp [assignPairs]
  | cons p ps ih =>
    rw [assignPairs_cons, ih]
    rw [mem_jsKeys_jsSet]
    simp only [List.map_cons, List.mem_cons]
    tauto

theorem nodup_jsKeys_assignPairs (ps : List (String × String)) (m : StrMap)
    (h : (jsKeys m).Nodup) : (jsKeys (assignPairs m ps)).Nodup := by
  induction ps generalizing m with
  | nil => exact h
  | cons p ps ih =>
    rw [assignPairs_cons]
    exact ih _ (nodup_jsKeys_jsSet m p.1 p.2 h)

theorem lastVal_eq_jsLookup_of_nodup (ps : List (String × String)) (k : String)
    (h : (jsKeys ps).Nodup) : lastVal ps k = jsLookup ps k := by
  induction ps with
  | nil => rfl
  | cons p ps ih =>
    obtain ⟨pk, pv⟩ := p
    simp only [jsKeys, List.map_cons, List.nodup_cons] at h
    by_cases hpk : pk = k
    · subst hpk
      have hnone : lastVal ps pk = none := by
        apply lastVal_eq_none
        intro q hq he
        exact h.1 (he ▸ List.mem_map_of_mem Prod.fst hq)
      simp [lastVal, jsLookup, hnone]
    · simp [lastVal, jsLookup, hpk, ih h.2, Option.or_none]

theorem lastVal_single (p : String × String) (k : String) :
    lastVal [p] k = if p.1 = k then some p.2 else none := by
  simp [lastVal]

theorem lastVal_callerHeaders (args : List String) (k : String) :
    lastVal (callerHeaders args) k = lastVal (args.map parseHeaderArg) k := by
  rw [callerHeaders]
  rw [lastVal_eq_jsLookup_of_nodup _ _ (nodup_jsKeys_assignPairs _ [] (by simp [jsKeys]))]
  rw [jsLookup_assignPairs]
  show Option.or _ none = _
  rw [Option.or_none]

/-- Closed form of a lookup in the constructed header map: the final
`{host: endpoint.host}` source wins, then the caller-supplied headers
(last assignment of a key wins), then the `user-agent` default, then the
lowercased `aws-sdk` defaults. -/
theorem jsLookup_requestHeaders (base : StrMap) (args : List String) (endpointHost k : String) :
    jsLookup (requestHeaders base args endpointHost) k =
      ((if "host" = k then some endpointHost else none).or
        ((lastVal (args.map parseHeaderArg) k).or
          ((if "user-agent" = k then some USER_AGENT else none).or
            (jsLookup (lowercaseKeys base) k)))) := by
  rw [requestHeaders, jsLookup_assignPairs, lastVal_append, lastVal_append,
    lastVal_single, lastVal_single, lastVal_callerHeaders, Option.or_assoc, Option.or_assoc]

theorem noUpper_of_mem_lowercaseKeys (base : StrMap) (k : String)
    (h : k ∈ jsKeys (lowercaseKeys base)) : noUpperAscii k = true := by
  rw [lowercaseKeys, mem_jsKeys_assignPairs] at h
  rcases h with h | h
  · simp [jsKeys] at h
  · rw [List.map_map] at h
    obtain ⟨p, _, rfl⟩ := List.mem_map.1 h
    exact noUpperAscii_jsToLower _

theorem noUpper_of_mem_callerHeaders (args : List String) (k : String)
    (h : k ∈ jsKeys (callerHeaders args)) : noUpperAscii k = true := by
  rw [callerHeaders, mem_jsKeys_assignPairs] at h
  rcases h with h | h
  · simp [jsKeys] at h
  · rw [List.map_map] at h
    obtain ⟨a, _, rfl⟩ := List.mem_map.1 h
    exact noUpperAscii_jsToLower _

theorem nodup_jsKeys_requestHeaders (base : StrMap) (args : List String) (endpointHost : String) :
    (jsKeys (requestHeaders base args endpointHost)).Nodup := by
  exact nodup_jsKeys_assignPairs _ _ (nodup_jsKeys_assignPairs _ [] (by simp [jsKeys]))

theorem jsIndexOfAux_eq_neg_one (c : Char) (cs : List Char) (h : c ∉ cs) :
    jsIndexOfAux c cs = -1 := by
  induction cs with
  | nil => rfl
  | cons x xs ih =>
    simp only [List.mem_cons, not_or] at h
    have hx : x ≠ c := fun he => h.1 he.symm
    simp [jsIndexOfAux, hx, ih h.2]

theorem jsSubstr_zero_neg_one (s : String) : jsSubstr s 0 (some (-1)) = "" := by
  show String.mk _ = String.mk []
  congr 1

theorem jsSubstr_zero_none (s : String) : jsSubstr s 0 none = s := by
  show String.mk _ = String.mk s.data
  congr 1
  simp only [jsSubstrList]
  rw [if_neg (show ¬((0 : Int) < 0) from by omega)]
  have hb : (min (0 : Int) (s.data.length : Int)).toNat = 0 := by omega
  have hl : ((s.data.length : Int) - min (0 : Int) (s.data.length : Int)).toNat
      = s.data.length := by omega
  rw [hb, hl, List.drop_zero, List.take_length]

theorem parseHeaderArg_no_colon (arg : String) (h : ':' ∉ arg.data) :
    parseHeaderArg arg = ("", arg) := by
  unfold parseHeaderArg jsIndexOf
  rw [jsIndexOfAux_eq_neg_one ':' arg.data h]
  show (jsToLower (jsSubstr arg 0 (some (-1))), jsSubstr arg ((-1) + 1) none) = ("", arg)
  rw [jsSubstr_zero_neg_one]
  rw [show (-1 : Int) + 1 = 0 from by omega]
  rw [jsSubstr_zero_none]
  rfl

theorem jsLookup_callerHeaders_append (args' : List String) (a n v : String)
    (hpa : parseHeaderArg a = (n, v)) :
    jsLookup (callerHeaders (args' ++ [a])) n = some v := by
  rw [callerHeaders, jsLookup_assignPairs, List.map_append, lastVal_append]
  simp [lastVal, hpa]

/-! ## Claim theorems -/

/-- C1 (amended): every constructed request's header map contains exactly
one `host` header, and its value is always the one derived from the URL
authority (`endpoint.host`) — even when the caller supplies a `host`
header, because `{host: endpoint.host}` is the last source of the
`Object.assign` at lines 185–189 and therefore overwrites the
caller-supplied value. -/
theorem host_header_unique_url_derived (base : StrMap) (args : List String)
    (endpointHost : String) :
    jsLookup (requestHeaders base args endpointHost) "host" = some endpointHost ∧
    (jsKeys (requestHeaders base args endpointHost)).count "host" = 1 := by
  have hl : jsLookup (requestHeaders base args endpointHost) "host" = some endpointHost := by
    rw [jsLookup_requestHeaders]
    rfl
  refine ⟨hl, ?_⟩
  exact List.count_eq_one_of_mem (nodup_jsKeys_requestHeaders base args endpointHost)
    (mem_jsKeys_of_jsLookup _ _ _ hl)

/-- C1 (counterexample to the claim as stated): the claim says a
caller-supplied `host` header wins over the URL-derived one.  With the
caller argument `Host:caller.example.com` and URL authority
`dynamodb.us-west-2.amazonaws.com`, the constructed map's `host` entry is
the URL-derived value, not the caller's. -/
theorem host_header_caller_does_not_win :
    parseHeaderArg "Host:caller.example.com" = ("host", "caller.example.com") ∧
    jsLookup (requestHeaders [] ["Host:caller.example.com"]
      "dynamodb.us-west-2.amazonaws.com") "host" = some "dynamodb.us-west-2.amazonaws.com" ∧
    jsLookup (requestHeaders [] ["Host:caller.example.com"]
      "dynamodb.us-west-2.amazonaws.com") "host" ≠ some "caller.example.com" := by
  refine ⟨by decide, by decide, by decide⟩

/-- C2: the spec's flagship example `https://dynamodb.us-west-2.amazonaws.com/`
does NOT resolve to region `us-west-2` / service `dynamodb` in the code.
The region pattern `([a-z0-9-]+)\.\w+\.amazonaws\.com` requires the label
directly before `.amazonaws.com` to be `\w+`, but that label is
`us-west-2`, which contains hyphens; `exec` returns `null` both for the
URL as given and for its normalized form, so the subscript `[1]` at line
87 throws an untyped `TypeError`.  Had execution reached the service
pattern `(\w+)\.amazonaws\.com`, its group would be `"2"` (the maximal
`\w+` run before `.amazonaws.com`), not `dynamodb`, i.e. not the first
label of the host name either. -/
theorem flagship_url_region_service_inference_fails :
    execRegion "https://dynamodb.us-west-2.amazonaws.com/" = none ∧
    execRegion "https://dynamodb.us-west-2.amazonaws.com" = none ∧
    resolveRegion none "https://dynamodb.us-west-2.amazonaws.com/" = .typeErrorCrash ∧
    execService "https://dynamodb.us-west-2.amazonaws.com/" = some "2" ∧
    resolveService none "https://dynamodb.us-west-2.amazonaws.com/" ≠ .ok "dynamodb" := by
  refine ⟨by decide, by decide, by decide, by decide, by decide⟩

/-- C3 (amended): for every URL on which the region pattern finds no
match and with no `--region` override, region resolution crashes with an
untyped `TypeError` (`null[1]` at line 87) — it never yields a silent
`undefined` and never a typed `RegionResolutionError`, a type the script
does not have. -/
theorem region_no_match_untyped_crash (url : String) (h : execRegion url = none) :
    resolveRegion none url = .typeErrorCrash ∧ ∀ v, resolveRegion none url ≠ .ok v := by
  simp [resolveRegion, h]

/-- Witness for `region_no_match_untyped_crash` at `https://example.com`. -/
theorem region_no_match_untyped_crash_witness :
    resolveRegion none "https://example.com" = .typeErrorCrash :=
  (region_no_match_untyped_crash "https://example.com" (by decide)).1

/-- C3 (counterexample to the claim as stated): at the matchless URL
`https://example.com` with no override, the resolution outcome is the
untyped `TypeError` crash, not a typed resolution error (the model's
outcome type mirrors the script, which has no `RegionResolutionError`). -/
theorem region_no_match_not_typed_error :
    execRegion "https://example.com" = none ∧
    resolveRegion none "https://example.com" = .typeErrorCrash := by
  refine ⟨by decide, by decide⟩

/-- C4: an explicit `--region` override is returned as the resolved
region and an explicit `--service` override as the resolved service, and
in both cases the URL (hence the host name) is not consulted: the result
is the same for every URL. -/
theorem override_wins_host_not_consulted (r s url url' : String) :
    resolveRegion (some r) url = .ok r ∧
    resolveService (some s) url = .ok s ∧
    resolveRegion (some r) url = resolveRegion (some r) url' ∧
    resolveService (some s) url = resolveService (some s) url' := by
  exact ⟨rfl, rfl, rfl, rfl⟩

/-- C5: a completed HTTP exchange whose status code lies outside
`[200, 300)` is classified by `handleResponse` as a request-level failure
carrying the full response metadata (status code, status message, headers,
body), a status code inside `[200, 300)` resolves successfully with that
same metadata object, and a transport-level failure carries no response
payload (`err.response` is absent, as `handleError` distinguishes). -/
theorem status_code_classification (m : ResponseMetadata) (msg : String) :
    (200 ≤ m.statusCode ∧ m.statusCode < 300 → handleResponseEnd m = .ok m) ∧
    ((m.statusCode < 200 ∨ 300 ≤ m.statusCode) →
      handleResponseEnd m = .error (.http m) ∧ failureResponse (.http m) = some m) ∧
    failureResponse (.transport msg) = none := by
  refine ⟨?_, ?_, rfl⟩
  · intro h
    rw [handleResponseEnd, if_neg (by omega)]
  · intro h
    exact ⟨by rw [handleResponseEnd, if_pos h], rfl⟩

/-- Witness for `status_code_classification` at status codes 200 and 404. -/
theorem status_code_classification_witness :
    handleResponseEnd ⟨200, "OK", [], ""⟩ = .ok ⟨200, "OK", [], ""⟩ ∧
    handleResponseEnd ⟨404, "Not Found", [], "err"⟩ =
      .error (.http ⟨404, "Not Found", [], "err"⟩) ∧
    failureResponse (.transport "connect ECONNREFUSED") = none :=
  ⟨(status_code_classification ⟨200, "OK", [], ""⟩ "x").1 (by decide),
    ((status_code_classification ⟨404, "Not Found", [], "err"⟩ "x").2.1
      (Or.inr (by decide))).1,
    (status_code_classification ⟨200, "OK", [], ""⟩ "connect ECONNREFUSED").2.2⟩

/-- C6: in every constructed request header map the names are unique and
contain no uppercase ASCII letter, and when the same header name is
assigned more than once the later assignment overwrites the earlier one
(shown for caller-supplied arguments by the last conjunct; the
defaults-versus-caller instance is the `user-agent` behaviour). -/
theorem headers_lowercase_unique_last_wins (base : StrMap) (args : List String)
    (endpointHost : String) :
    (jsKeys (requestHeaders base args endpointHost)).Nodup ∧
    (∀ k ∈ jsKeys (requestHeaders base args endpointHost), noUpperAscii k = true) ∧
    (∀ (args' : List String) (a n v : String), parseHeaderArg a = (n, v) →
      jsLookup (callerHeaders (args' ++ [a])) n = some v) := by
  refine ⟨nodup_jsKeys_requestHeaders base args endpointHost, ?_,
    fun args' a n v hpa => jsLookup_callerHeaders_append args' a n v hpa⟩
  intro k hk
  rw [requestHeaders, mem_jsKeys_assignPairs] at hk
  rcases hk with hk | hk
  · exact noUpper_of_mem_lowercaseKeys base k hk
  · rw [List.map_append, List.map_append] at hk
    rcases List.mem_append.1 hk with hk | hk
    · rcases List.mem_append.1 hk with hk | hk
      · have hke : k = "user-agent" := by simpa using hk
        subst hke
        decide
      · exact noUpper_of_mem_callerHeaders args k hk
    · have hke : k = "host" := by simpa using hk
      subst hke
      decide

/-- Witness for `headers_lowercase_unique_last_wins`: two caller arguments
for the same (case-collapsed) name; the later value wins. -/
theorem headers_lowercase_unique_last_wins_witness :
    jsLookup (callerHeaders (["x-test:1"] ++ ["X-Test:2"])) "x-test" = some "2" :=
  (headers_lowercase_unique_last_wins [] [] "h").2.2 ["x-test:1"] "X-Test:2" "x-test" "2"
    (by decide)

/-- C7: when any upstream step fails — URL normalization throws, region
or service resolution crashes, stdin acquisition fails, or credential
retrieval fails — the invocation never reaches `handleRequest`, so no
request (signed, partially signed or unsigned) is sent over the
transport. -/
theorem upstream_failure_aborts_send (normalizedUrl : Except JsError String)
    (ro so : Option String) (stdinResult : Except JsError String)
    (credsResult : Except JsError Credentials)
    (transport : Except FailureKind ResponseMetadata)
    (h : (∃ e, normalizedUrl = .error e) ∨
      (∃ url, normalizedUrl = .ok url ∧ resolveRegion ro url = .typeErrorCrash) ∨
      (∃ url, normalizedUrl = .ok url ∧ resolveService so url = .typeErrorCrash) ∨
      (∃ e, stdinResult = .error e) ∨
      (∃ e, credsResult = .error e)) :
    (runInvocation normalizedUrl ro so stdinResult credsResult transport).1 = false := by
  cases normalizedUrl with
  | error e => rfl
  | ok url =>
    rcases h with ⟨e, he⟩ | ⟨u, hu, hr⟩ | ⟨u, hu, hs⟩ | ⟨e, he⟩ | ⟨e, he⟩
    · exact absurd he (by simp)
    · have huu : url = u := by injection hu
      subst huu
      simp only [runInvocation]
      rw [hr]
    · have huu : url = u := by injection hu
      subst huu
      cases hrr : resolveRegion ro url with
      | typeErrorCrash => simp only [runInvocation]; rw [hrr]
      | ok r =>
        simp only [runInvocation]
        rw [hrr, hs]
    · subst he
      cases hrr : resolveRegion ro url with
      | typeErrorCrash => simp only [runInvocation]; rw [hrr]
      | ok r =>
        cases hss : resolveService so url with
        | typeErrorCrash => simp only [runInvocation]; rw [hrr, hss]
        | ok s => simp only [runInvocation]; rw [hrr, hss]
    · subst he
      cases hrr : resolveRegion ro url with
      | typeErrorCrash => simp only [runInvocation]; rw [hrr]
      | ok r =>
        cases hss : resolveService so url with
        | typeErrorCrash => simp only [runInvocation]; rw [hrr, hss]
        | ok s =>
          cases stdinResult with
          | error e' => simp only [runInvocation]; rw [hrr, hss]
          | ok b => simp only [runInvocation]; rw [hrr, hss]

/-- Witness for `upstream_failure_aborts_send`: failed credential
retrieval with every other step fine; nothing is sent. -/
theorem upstream_failure_aborts_send_witness :
    (runInvocation (.ok "https://iam.amazonaws.com") none none (.ok "")
      (.error (.generic "CredentialsUnavailable")) (.ok ⟨200, "OK", [], ""⟩)).1 = false :=
  upstream_failure_aborts_send (.ok "https://iam.amazonaws.com") none none (.ok "")
    (.error (.generic "CredentialsUnavailable")) (.ok ⟨200, "OK", [], ""⟩)
    (Or.inr (Or.inr (Or.inr (Or.inr ⟨.generic "CredentialsUnavailable", rfl⟩))))

/-- C8: the request method is an uppercase token — when the first
positional argument is a word token (`/^\w+$/`) the method is that
argument uppercased, otherwise it defaults to `GET`; in both cases the
result contains no lowercase ASCII letter. -/
theorem method_uppercase_token (s : String) :
    (jsIsWordToken s = true → resolveMethod s = jsToUpper s) ∧
    (jsIsWordToken s = false → resolveMethod s = "GET") ∧
    noLowerAscii (resolveMethod s) = true := by
  have hG : noLowerAscii "GET" = true := by decide
  unfold resolveMethod
  cases h : jsIsWordToken s with
  | false => simp [h, hG]
  | true => simp [h, noLowerAscii_jsToUpper]

/-- Witness for `method_uppercase_token`: `post` is uppercased to `POST`;
a URL-shaped first argument falls back to `GET`. -/
theorem method_uppercase_token_witness :
    resolveMethod "post" = "POST" ∧ resolveMethod "https://example.com" = "GET" := by
  constructor
  · have h := (method_uppercase_token "post").1 (by decide)
    rw [h]
    decide
  · exact (method_uppercase_token "https://example.com").2.1 (by decide)

/-- C9: a positional header argument with no `:` separator is not
rejected: it is inserted under the empty-string name with the whole
argument as the value (`indexOf` returns `-1`, so `substr(0, -1)` is `""`
and `substr(0)` is the whole argument), and a later such argument
overwrites an earlier one (the lookup under `""` yields the last one). -/
theorem colonless_header_inserted (arg : String) (args : List String)
    (h : ':' ∉ arg.data) :
    parseHeaderArg arg = ("", arg) ∧
    jsLookup (callerHeaders (args ++ [arg])) "" = some arg := by
  have hp := parseHeaderArg_no_colon arg h
  exact ⟨hp, jsLookup_callerHeaders_append args arg "" arg hp⟩

/-- Witness for `colonless_header_inserted`: the colonless arguments
`earlier` then `rawvalue`; the entry under `""` is the later one. -/
theorem colonless_header_inserted_witness :
    parseHeaderArg "rawvalue" = ("", "rawvalue") ∧
    jsLookup (callerHeaders (["earlier"] ++ ["rawvalue"])) "" = some "rawvalue" :=
  colonless_header_inserted "rawvalue" ["earlier"] (by decide)

/-- C10: every constructed request carries the tool-identifying
`user-agent` default unless some caller argument supplies a `user-agent`
header (its name compared after lowercasing, hence under any letter
case), in which case the last caller-supplied value replaces the
default. -/
theorem user_agent_default_and_override (base : StrMap) (args : List String)
    (endpointHost : String) :
    ((∀ a ∈ args, (parseHeaderArg a).1 ≠ "user-agent") →
      jsLookup (requestHeaders base args endpointHost) "user-agent" = some USER_AGENT) ∧
    (∀ (pre post : List String) (a v : String),
      args = pre ++ a :: post →
      parseHeaderArg a = ("user-agent", v) →
      (∀ b ∈ post, (parseHeaderArg b).1 ≠ "user-agent") →
      jsLookup (requestHeaders base args endpointHost) "user-agent" = some v) := by
  constructor
  · intro hno
    have hn : lastVal (args.map parseHeaderArg) "user-agent" = none := by
      apply lastVal_eq_none
      intro p hp
      obtain ⟨a, ha, rfl⟩ := List.mem_map.1 hp
      exact hno a ha
    rw [jsLookup_requestHeaders, hn, if_neg (by decide), if_pos rfl]
    rfl
  · intro pre post a v hargs hpa hpost
    subst hargs
    have hpostn : lastVal (post.map parseHeaderArg) "user-agent" = none := by
      apply lastVal_eq_none
      intro p hp
      obtain ⟨b, hb, rfl⟩ := List.mem_map.1 hp
      exact hpost b hb
    rw [jsLookup_requestHeaders, List.map_append, lastVal_append, List.map_cons]
    rw [show lastVal (parseHeaderArg a :: post.map parseHeaderArg) "user-agent"
        = (lastVal (post.map parseHeaderArg) "user-agent").or
          (if (parseHeaderArg a).1 = "user-agent" then some (parseHeaderArg a).2 else none)
      from rfl]
    rw [hpostn, hpa, if_neg (by decide)]
    rfl

/-- Witness for `user_agent_default_and_override`: no caller headers
yields the default; a caller `User-Agent` argument (mixed case) replaces
it. -/
theorem user_agent_default_and_override_witness :
    jsLookup (requestHeaders [] [] "h.example") "user-agent" = some USER_AGENT ∧
    jsLookup (requestHeaders [] ["User-Agent:custom/1.0"] "h.example") "user-agent"
      = some "custom/1.0" := by
  constructor
  · exact (user_agent_default_and_override [] [] "h.example").1 (by simp)
  · exact (user_agent_default_and_override [] ["User-Agent:custom/1.0"] "h.example").2
      [] [] "User-Agent:custom/1.0" "custom/1.0" rfl (by decide) (by simp)

end HttpAws4
